import Mathlib

/-!
Verification development for the dev-connector REST backend
(`routes/api/profile.js` and `routes/api/posts.js`).

The JavaScript handlers are shallowly embedded as pure Lean functions:
each Express handler becomes a function from its inputs (the authenticated
user id, URL parameters, request body, and the relevant store state) to an
`ApiRes` response together with the store state after any `save()` calls.
JavaScript array operations (`indexOf`, `splice`, `split`, `trim`, `find`,
`filter`, `unshift`) are modelled by dedicated functions that reproduce
their ECMAScript semantics, including `indexOf` returning `-1` and
`splice`'s negative-index clamping.
-/

namespace DevConnector

/-! ### JavaScript array and string primitives -/

/-- First index of the list at which the predicate holds, if any.
Models the linear scan underlying `Array.prototype.indexOf` and
`Array.prototype.findIndex`. -/
def findIdxO (p : α → Bool) : List α → Option Nat
  | [] => none
  | x :: xs => if p x then some 0 else (findIdxO p xs).map (· + 1)

/-- `Array.prototype.indexOf`: the first index holding `x`, or `-1`. -/
def jsIndexOf [BEq α] (xs : List α) (x : α) : Int :=
  match findIdxO (fun y => y == x) xs with
  | some i => (i : Nat)
  | none => -1

/-- The actual start index used by `Array.prototype.splice`:
a negative start counts back from the end, clamped at `0`;
a non-negative start is clamped at the length. -/
def spliceIdx (len : Nat) (start : Int) : Nat :=
  if start < 0 then (max ((len : Int) + start) 0).toNat
  else min start.toNat len

/-- `arr.splice(start, 1)`: remove one element at the (clamped) start index.
With `start = -1` on a non-empty array this removes the final element. -/
def splice1 (xs : List α) (start : Int) : List α :=
  let i := spliceIdx xs.length start
  xs.take i ++ xs.drop (i + 1)

/-- `String.prototype.split(",")` on the character list: the comma-separated
segments, in order; the empty string yields one empty segment. -/
def splitOnComma : List Char → List (List Char)
  | [] => [[]]
  | c :: cs =>
    let rest := splitOnComma cs
    if c = ',' then [] :: rest
    else
      match rest with
      | [] => [[c]]
      | t :: ts => (c :: t) :: ts

/-- Whitespace characters stripped by `String.prototype.trim`
(the forms that occur in this application's data). -/
def isJsWhitespace (c : Char) : Bool :=
  c == ' ' || c == '\t' || c == '\n' || c == '\r'

/-- `String.prototype.trim` on the character list: strip leading and
trailing whitespace. -/
def jsTrimChars (s : List Char) : List Char :=
  ((s.dropWhile isJsWhitespace).reverse.dropWhile isJsWhitespace).reverse

/-- `s.split(",")` as a list of strings. -/
def jsSplitComma (s : String) : List String :=
  (splitOnComma s.data).map (fun t => String.mk t)

/-- `s.trim()` as a string. -/
def jsTrim (s : String) : String :=
  String.mk (jsTrimChars s.data)

/-! ### Data model

Identifiers (user ids, subdocument ids) are strings.  Optional document
fields are `Option String`; a field that is `none` is absent from the
stored document. -/

/-- A like subdocument on a post: a bare user reference. -/
structure Like where
  user : String
  deriving DecidableEq, Repr

/-- A comment subdocument on a post. -/
structure Comment where
  id : String
  text : String
  name : String
  avatar : String
  user : String
  deriving DecidableEq, Repr

/-- An experience subdocument on a profile (`from`/`to` are Lean keywords,
so those date fields are named `fromDate`/`toDate`). -/
structure Experience where
  id : String
  title : String
  company : String
  location : Option String
  fromDate : String
  toDate : Option String
  current : Bool
  description : Option String
  deriving DecidableEq, Repr

/-- An education subdocument on a profile. -/
structure Education where
  id : String
  school : String
  degree : String
  fieldofstudy : Option String
  fromDate : String
  toDate : Option String
  current : Bool
  description : Option String
  deriving DecidableEq, Repr

/-- The social-links sub-object of a profile; each platform is optional. -/
structure Social where
  youtube : Option String
  twitter : Option String
  facebook : Option String
  linkedin : Option String
  instagram : Option String
  deriving DecidableEq, Repr

/-- A profile document. -/
structure Profile where
  user : String
  company : Option String
  website : Option String
  location : Option String
  bio : Option String
  status : Option String
  githubusername : Option String
  skills : List String
  social : Social
  experience : List Experience
  education : List Education
  deriving DecidableEq, Repr

/-- A post document (author name/avatar are a denormalized snapshot). -/
structure Post where
  id : String
  user : String
  text : String
  name : String
  avatar : String
  likes : List Like
  comments : List Comment
  deriving DecidableEq, Repr

/-- An HTTP response: either a JSON success payload, or an error with its
status code and user-facing message. -/
inductive ApiRes (α : Type) where
  | ok (payload : α)
  | err (status : Nat) (msg : String)
  deriving DecidableEq, Repr

/-! ### Profile upsert (`POST api/profile`)

The handler destructures the body, copies each truthy field into a
`profileFields` object, always assigns `profileFields.social` a freshly
built object, and then either creates a profile from `profileFields` or
runs `findOneAndUpdate` with `$set: profileFields`.  MongoDB's `$set`
replaces the value at each top-level key of the update document, so the
`social` sub-document is replaced whole. -/

/-- The skills body field is either a string or already a list
(`Array.isArray(skills)`). -/
inductive SkillsInput where
  | str (s : String)
  | list (l : List String)
  deriving DecidableEq, Repr

/-- The request body of `POST api/profile`; absent fields are `none`. -/
structure ProfileInput where
  company : Option String
  website : Option String
  location : Option String
  bio : Option String
  status : Option String
  githubusername : Option String
  skills : Option SkillsInput
  youtube : Option String
  facebook : Option String
  twitter : Option String
  instagram : Option String
  linkedin : Option String
  deriving DecidableEq, Repr

/-- JavaScript truthiness of an optional string body field:
`undefined` and the empty string are falsy. -/
def truthyStr : Option String → Bool
  | none => false
  | some s => s != ""

/-- JavaScript truthiness of the skills field: `undefined` and the empty
string are falsy; every array (even an empty one) is truthy. -/
def truthySkills : Option SkillsInput → Bool
  | none => false
  | some (.str s) => s != ""
  | some (.list _) => true

/-- A truthy field of the body, or `none` when the `if (field)` guard in
the handler skipped the assignment. -/
def keepTruthy (v : Option String) : Option String :=
  if truthyStr v then v else none

/-- The skills normalization in the handler: an array is stored as is; a
string is split on commas and each segment is trimmed and prefixed with a
single space (`skills.split(",").map((skill) => " " + skill.trim())`). -/
def normalizeSkills : SkillsInput → List String
  | .list l => l
  | .str s => (jsSplitComma s).map (fun skill => " " ++ jsTrim skill)

/-- The social object built by the handler: each platform key is assigned
only when the body field is truthy. -/
def buildSocial (input : ProfileInput) : Social where
  youtube := keepTruthy input.youtube
  twitter := keepTruthy input.twitter
  facebook := keepTruthy input.facebook
  linkedin := keepTruthy input.linkedin
  instagram := keepTruthy input.instagram

/-- The `profileFields` update document: `user` and `social` are always
present; every other key is present only when the body field is truthy. -/
structure ProfileFields where
  user : String
  company : Option String
  website : Option String
  location : Option String
  bio : Option String
  status : Option String
  githubusername : Option String
  skills : Option (List String)
  social : Social
  deriving DecidableEq, Repr

/-- Build `profileFields` from the authenticated user id and the body. -/
def buildProfileFields (uid : String) (input : ProfileInput) : ProfileFields where
  user := uid
  company := keepTruthy input.company
  website := keepTruthy input.website
  location := keepTruthy input.location
  bio := keepTruthy input.bio
  status := keepTruthy input.status
  githubusername := keepTruthy input.githubusername
  skills := if truthySkills input.skills then input.skills.map normalizeSkills else none
  social := buildSocial input

/-- MongoDB `$set` semantics for one optional scalar key: a key present in
the update document replaces the stored value; an absent key leaves it. -/
def setField (old new : Option String) : Option String :=
  match new with
  | some v => some v
  | none => old

/-- `findOneAndUpdate({user}, {$set: profileFields}, {new: true})` applied
to the matched profile: each key present in `profileFields` replaces the
stored value at that key; `social` is always present, so the stored social
sub-document is replaced whole. -/
def applySet (p : Profile) (f : ProfileFields) : Profile where
  user := f.user
  company := setField p.company f.company
  website := setField p.website f.website
  location := setField p.location f.location
  bio := setField p.bio f.bio
  status := setField p.status f.status
  githubusername := setField p.githubusername f.githubusername
  skills := f.skills.getD p.skills
  social := f.social
  experience := p.experience
  education := p.education

/-- `new Profile(profileFields)` followed by `save()`: a fresh document
with the given fields and empty experience/education lists. -/
def createProfile (f : ProfileFields) : Profile where
  user := f.user
  company := f.company
  website := f.website
  location := f.location
  bio := f.bio
  status := f.status
  githubusername := f.githubusername
  skills := f.skills.getD []
  social := f.social
  experience := []
  education := []

/-- The core of the `POST api/profile` handler after validation: update
the existing profile for the owner, or create one. -/
def postProfile (existing : Option Profile) (uid : String) (input : ProfileInput) : Profile :=
  let f := buildProfileFields uid input
  match existing with
  | some p => applySet p f
  | none => createProfile f

/-! ### Profile lookup by user id (`GET api/profile/user/:user_id`) -/

/-- Structural validity of a store key: Mongoose casts the `user` filter
value to an ObjectId, which must be a 24-character hex string. -/
def validObjectId (s : String) : Bool :=
  s.length == 24 && s.data.all (fun c => c.isDigit || ('a' ≤ c && c ≤ 'f'))

/-- An error thrown by a store operation, carrying its `kind` tag;
a failed ObjectId cast throws with `kind = "ObjectId"`. -/
structure DbErr where
  kind : String
  deriving DecidableEq, Repr

/-- `Profile.findOne({user: user_id})`: throws a CastError of kind
`"ObjectId"` when the identifier is structurally malformed, otherwise
returns the first profile owned by the identifier, if any. -/
def dbFindProfileByUser (store : List Profile) (user_id : String) :
    Except DbErr (Option Profile) :=
  if validObjectId user_id then
    .ok (store.find? (fun p => p.user == user_id))
  else
    .error ⟨"ObjectId"⟩

/-- The `GET api/profile/user/:user_id` handler: a missing profile gives
`400 Profile not found`; a thrown error lands in the catch block, which
maps kind `"ObjectId"` to the same `400 Profile not found` and anything
else to `500 Server error`. -/
def getProfileByUser (store : List Profile) (user_id : String) : ApiRes Profile :=
  match dbFindProfileByUser store user_id with
  | .ok none => .err 400 "Profile not found"
  | .ok (some p) => .ok p
  | .error e =>
    if e.kind == "ObjectId" then .err 400 "Profile not found"
    else .err 500 "Server error"

/-! ### Account deletion (`DELETE api/profile`) -/

/-- The store state touched by account deletion: user records (by id),
profiles and posts. -/
structure Store where
  users : List String
  profiles : List Profile
  posts : List Post
  deriving DecidableEq, Repr

/-- One store removal operation issued by a handler. -/
inductive StoreOp where
  | deleteManyPostsByUser (uid : String)
  | removeProfileByUser (uid : String)
  | removeUserById (uid : String)
  deriving DecidableEq, Repr

/-- Apply one removal: `deleteMany` removes every match,
`findOneAndRemove` removes the first match. -/
def applyOp (s : Store) : StoreOp → Store
  | .deleteManyPostsByUser uid => { s with posts := s.posts.filter (fun p => p.user != uid) }
  | .removeProfileByUser uid => { s with profiles := s.profiles.eraseP (fun p => p.user == uid) }
  | .removeUserById uid => { s with users := s.users.eraseP (fun u => u == uid) }

/-- The removals issued by the `DELETE api/profile` handler, in program
order: the caller's posts, then their profile, then their user record. -/
def deleteAccountOps (uid : String) : List StoreOp :=
  [.deleteManyPostsByUser uid, .removeProfileByUser uid, .removeUserById uid]

/-- Run a sequence of store operations left to right. -/
def runOps (s : Store) (ops : List StoreOp) : Store :=
  ops.foldl applyOp s

/-! ### Experience / education handlers -/

/-- The `PUT api/profile/experience` handler after validation: find the
caller's profile and head-insert the new entry.  When the caller has no
profile, `findOne` yields `null` and `profile.experience.unshift` throws a
TypeError, which the catch block maps to `500 Server error`; no profile is
created. -/
def addExperience (profiles : List Profile) (uid : String) (newExp : Experience) :
    ApiRes Profile × List Profile :=
  match profiles.find? (fun p => p.user == uid) with
  | none => (.err 500 "Server error", profiles)
  | some p =>
    let p' := { p with experience := newExp :: p.experience }
    (.ok p', profiles.map (fun q => if q.user == uid then p' else q))

/-- The `PUT api/profile/education` handler after validation; the missing
profile case throws and is caught exactly as in `addExperience`. -/
def addEducation (profiles : List Profile) (uid : String) (newEdu : Education) :
    ApiRes Profile × List Profile :=
  match profiles.find? (fun p => p.user == uid) with
  | none => (.err 500 "Server error", profiles)
  | some p =>
    let p' := { p with education := newEdu :: p.education }
    (.ok p', profiles.map (fun q => if q.user == uid then p' else q))

/-- The `DELETE api/profile/experience/:exp_id` handler on the caller's
profile: `removeIndex` is the `indexOf` of `exp_id` among the entry ids
(`-1` when absent), one element is spliced out unconditionally, and the
saved profile is returned. -/
def deleteExperience (p : Profile) (exp_id : String) : ApiRes Profile × Profile :=
  let removeIndex := jsIndexOf (p.experience.map (fun item => item.id)) exp_id
  let p' := { p with experience := splice1 p.experience removeIndex }
  (.ok p', p')

/-- The `DELETE api/profile/education/:edu_id` handler, symmetric to
`deleteExperience`. -/
def deleteEducation (p : Profile) (edu_id : String) : ApiRes Profile × Profile :=
  let removeIndex := jsIndexOf (p.education.map (fun item => item.id)) edu_id
  let p' := { p with education := splice1 p.education removeIndex }
  (.ok p', p')

/-! ### Like / unlike / comment handlers -/

/-- The `PUT api/posts/like/:id` handler: a caller already present in the
like list gets `400 Post already liked` and the post is untouched;
otherwise a like is head-inserted, the post is saved, and only the like
list is returned. -/
def likePost (post : Post) (uid : String) : ApiRes (List Like) × Post :=
  if 0 < (post.likes.filter (fun like => like.user == uid)).length then
    (.err 400 "Post already liked", post)
  else
    let newLikes := { user := uid } :: post.likes
    let post' := { post with likes := newLikes }
    (.ok newLikes, post')

/-- The `PUT api/posts/unlike/:id` handler: a caller absent from the like
list gets `400 Post has not yet been liked`; otherwise the entry at the
`indexOf` of the caller among the like users is spliced out and the
resulting like list is returned. -/
def unlikePost (post : Post) (uid : String) : ApiRes (List Like) × Post :=
  if (post.likes.filter (fun like => like.user == uid)).length = 0 then
    (.err 400 "Post has not yet been liked", post)
  else
    let removeIndex := jsIndexOf (post.likes.map (fun like => like.user)) uid
    let newLikes := splice1 post.likes removeIndex
    let post' := { post with likes := newLikes }
    (.ok newLikes, post')

/-- The `DELETE api/posts/comment/:id/:comment_id` handler: find the
comment by id (`404` when absent), reject a non-author caller (`401`),
then splice out the entry at the `indexOf` of the caller among the comment
authors — a scan by user identity, not by the validated comment id — and
return the resulting comment list. -/
def deleteComment (post : Post) (uid comment_id : String) :
    ApiRes (List Comment) × Post :=
  match post.comments.find? (fun comment => comment.id == comment_id) with
  | none => (.err 404 "Comment does not exist", post)
  | some comment =>
    if comment.user != uid then
      (.err 401 "User not authorised", post)
    else
      let removeIndex := jsIndexOf (post.comments.map (fun c => c.user)) uid
      let newComments := splice1 post.comments removeIndex
      let post' := { post with comments := newComments }
      (.ok newComments, post')

/-! ### External repository lookup (`GET api/profile/github/:username`) -/

/-- The upstream request URI built by the handler: a fixed page size of 5
and a fixed sort order. -/
def githubUri (username : String) : String :=
  "https://api.github.com/users/" ++ username ++ "/repos?per_page=5&sort=created:asc"

/-- The response callback of the handler, given the upstream status code
and body: any status other than 200 yields `404 No Github profile found`;
a 200 relays the (parsed and re-serialized) body. -/
def githubHandler (statusCode : Nat) (body : String) : ApiRes String :=
  if statusCode ≠ 200 then .err 404 "No Github profile found"
  else .ok body

/-! ### Helper lemmas about the JavaScript primitives -/

theorem findIdxO_eq_none_iff (p : α → Bool) (xs : List α) :
    findIdxO p xs = none ↔ ∀ x ∈ xs, p x = false := by
  induction xs with
  | nil => simp [findIdxO]
  | cons a l ih =>
    by_cases h : p a
    · simp [findIdxO, h]
    · simp [findIdxO, h, ih]

theorem findIdxO_map (p : β → Bool) (f : α → β) (xs : List α) :
    findIdxO p (xs.map f) = findIdxO (fun x => p (f x)) xs := by
  induction xs with
  | nil => rfl
  | cons a l ih => simp [findIdxO, ih]

theorem findIdxO_some (p : α → Bool) (xs : List α) (k : Nat)
    (h : findIdxO p xs = some k) :
    ∃ x, xs[k]? = some x ∧ p x = true ∧
      ∀ j, j < k → ∀ y, xs[j]? = some y → p y = false := by
  induction xs generalizing k with
  | nil => simp [findIdxO] at h
  | cons a l ih =>
    by_cases ha : p a
    · simp only [findIdxO, if_pos ha, Option.some.injEq] at h
      subst h
      exact ⟨a, by simp, ha, by omega⟩
    · simp only [findIdxO, if_neg ha, Option.map_eq_some'] at h
      obtain ⟨k', hk', rfl⟩ := h
      obtain ⟨x, hx, hpx, hprev⟩ := ih k' hk'
      refine ⟨x, by simpa using hx, hpx, ?_⟩
      intro j hj y hy
      cases j with
      | zero =>
        simp only [List.getElem?_cons_zero, Option.some.injEq] at hy
        subst hy
        simpa using ha
      | succ j' =>
        exact hprev j' (by omega) y (by simpa using hy)

theorem jsIndexOf_eq_neg_one [BEq α] [LawfulBEq α] (xs : List α) (x : α)
    (h : x ∉ xs) : jsIndexOf xs x = -1 := by
  unfold jsIndexOf
  have hnone : findIdxO (fun y => y == x) xs = none := by
    rw [findIdxO_eq_none_iff]
    intro y hy
    simp only [beq_eq_false_iff_ne]
    rintro rfl
    exact h hy
  rw [hnone]

theorem splice1_neg_one (xs : List α) (h : xs ≠ []) :
    splice1 xs (-1) = xs.dropLast := by
  have hlen : 1 ≤ xs.length := List.length_pos.mpr h
  unfold splice1 spliceIdx
  simp only [if_pos (by omega : (-1 : Int) < 0)]
  have h1 : (max ((xs.length : Int) + (-1)) 0).toNat = xs.length - 1 := by omega
  rw [h1]
  have h2 : xs.length - 1 + 1 = xs.length := by omega
  rw [h2, List.drop_length, List.append_nil, List.dropLast_eq_take]

theorem splice1_of_lt (xs : List α) (k : Nat) (h : k < xs.length) :
    splice1 xs (k : Int) = xs.take k ++ xs.drop (k + 1) := by
  unfold splice1 spliceIdx
  have hneg : ¬ ((k : Int) < 0) := by omega
  simp only [if_neg hneg, Int.toNat_ofNat]
  rw [Nat.min_eq_left (Nat.le_of_lt h)]

/-! ### C1 -/

/-- **C1.** On a profile whose experience (resp. education) list is
non-empty, removing by an entry id matching no entry degrades the
`indexOf` lookup to `-1`, so the splice deletes the final list element;
the handler persists and returns that updated profile. -/
theorem c1_remove_missing_entry_deletes_last (p : Profile) (exp_id edu_id : String)
    (hexp : p.experience ≠ []) (hedu : p.education ≠ [])
    (hexpid : ∀ e ∈ p.experience, e.id ≠ exp_id)
    (heduid : ∀ e ∈ p.education, e.id ≠ edu_id) :
    deleteExperience p exp_id =
      (.ok { p with experience := p.experience.dropLast },
        { p with experience := p.experience.dropLast })
    ∧ deleteEducation p edu_id =
      (.ok { p with education := p.education.dropLast },
        { p with education := p.education.dropLast }) := by
  constructor
  · unfold deleteExperience
    have h1 : jsIndexOf (p.experience.map (fun item => item.id)) exp_id = -1 := by
      apply jsIndexOf_eq_neg_one
      simp only [List.mem_map, not_exists]
      rintro e ⟨he, rfl⟩
      exact hexpid e he rfl
    rw [h1]
    simp only [splice1_neg_one _ hexp]
  · unfold deleteEducation
    have h1 : jsIndexOf (p.education.map (fun item => item.id)) edu_id = -1 := by
      apply jsIndexOf_eq_neg_one
      simp only [List.mem_map, not_exists]
      rintro e ⟨he, rfl⟩
      exact heduid e he rfl
    rw [h1]
    simp only [splice1_neg_one _ hedu]

/-- A sample experience entry for concrete evaluations. -/
def expA : Experience :=
  { id := "e1", title := "Dev", company := "Acme", location := none,
    fromDate := "2020-01-01", toDate := none, current := true, description := none }

/-- A second sample experience entry. -/
def expB : Experience :=
  { id := "e2", title := "Ops", company := "Beta", location := some "Leeds",
    fromDate := "2018-01-01", toDate := some "2019-12-31", current := false,
    description := some "infra" }

/-- A sample education entry. -/
def eduA : Education :=
  { id := "d1", school := "Uni", degree := "BSc", fieldofstudy := some "CS",
    fromDate := "2014-09-01", toDate := some "2017-06-30", current := false,
    description := none }

/-- A sample profile holding the sample entries. -/
def profA : Profile :=
  { user := "u1", company := none, website := none, location := none,
    bio := none, status := some "developer", githubusername := none,
    skills := [" js"], social := ⟨none, none, none, none, none⟩,
    experience := [expA, expB], education := [eduA] }

/-- **C1 witness.** On the sample profile, removal with the unmatched id
`"zz"` deletes the last experience entry (`expB`) and the only education
entry. -/
theorem c1_witness :
    (profA.experience ≠ [] ∧ profA.education ≠ [] ∧
      (∀ e ∈ profA.experience, e.id ≠ "zz") ∧
      (∀ e ∈ profA.education, e.id ≠ "zz")) ∧
    (deleteExperience profA "zz" =
      (.ok { profA with experience := profA.experience.dropLast },
        { profA with experience := profA.experience.dropLast })
    ∧ deleteEducation profA "zz" =
      (.ok { profA with education := profA.education.dropLast },
        { profA with education := profA.education.dropLast })) :=
  ⟨⟨by decide, by decide, by decide, by decide⟩,
    c1_remove_missing_entry_deletes_last profA "zz" "zz"
      (by decide) (by decide) (by decide) (by decide)⟩

/-! ### C2 -/

/-- **C2.** For an authorized comment deletion (the comment with the given
id exists and its author is the caller), the handler removes the element
at the position of the caller's first (head-most) authored comment — found
by scanning comment authors for the caller's user id, not by the validated
comment id — then persists and returns the spliced comment list. -/
theorem c2_delete_comment_scans_author (post : Post) (uid comment_id : String)
    (c : Comment)
    (hfind : post.comments.find? (fun comment => comment.id == comment_id) = some c)
    (hauth : c.user = uid) :
    ∃ k, k < post.comments.length ∧
      (∀ x, post.comments[k]? = some x → x.user = uid) ∧
      (∀ j, j < k → ∀ y, post.comments[j]? = some y → y.user ≠ uid) ∧
      deleteComment post uid comment_id =
        (.ok (post.comments.take k ++ post.comments.drop (k + 1)),
          { post with comments := post.comments.take k ++ post.comments.drop (k + 1) }) := by
  have hmem : c ∈ post.comments := List.mem_of_find?_eq_some hfind
  have hpc : (fun comment => comment.user == uid) c = true := by
    simp [hauth]
  obtain ⟨k, hk⟩ : ∃ k, findIdxO (fun comment => comment.user == uid) post.comments = some k := by
    cases hcase : findIdxO (fun comment => comment.user == uid) post.comments with
    | none =>
      rw [findIdxO_eq_none_iff] at hcase
      have := hcase c hmem
      rw [hauth] at this
      simp at this
    | some k => exact ⟨k, rfl⟩
  obtain ⟨x, hx, hpx, hprev⟩ := findIdxO_some _ _ _ hk
  have hklen : k < post.comments.length := by
    rcases List.getElem?_eq_some.mp hx with ⟨hlt, _⟩
    exact hlt
  refine ⟨k, hklen, ?_, ?_, ?_⟩
  · intro y hy
    rw [hx] at hy
    cases hy
    simpa using hpx
  · intro j hj y hy
    have := hprev j hj y hy
    simpa using this
  · have hbne : (c.user != uid) = false := by
      simp [hauth]
    have hidx : jsIndexOf (post.comments.map (fun c => c.user)) uid = (k : Int) := by
      unfold jsIndexOf
      rw [findIdxO_map]
      simp only [hk]
    unfold deleteComment
    rw [hfind]
    simp only [hbne, Bool.false_eq_true, if_false, hidx, splice1_of_lt _ _ hklen]

/-- A sample comment by user `u1`, the head (most recent) one. -/
def comA : Comment :=
  { id := "cm1", text := "first", name := "Kev", avatar := "a", user := "u1" }

/-- A second sample comment, also by user `u1`, older. -/
def comB : Comment :=
  { id := "cm2", text := "second", name := "Kev", avatar := "a", user := "u1" }

/-- A sample post holding the two comments by the same author. -/
def postA : Post :=
  { id := "p1", user := "u2", text := "hello", name := "Oth", avatar := "b",
    likes := [], comments := [comA, comB] }

/-- **C2 witness.** Deleting comment `"cm2"` on the sample post (two
comments, both by the caller) removes the head comment `"cm1"` instead:
the element removed differs from the one identified by `comment_id`. -/
theorem c2_witness :
    (postA.comments.find? (fun comment => comment.id == "cm2") = some comB ∧
      comB.user = "u1") ∧
    (∃ k, k < postA.comments.length ∧
      (∀ x, postA.comments[k]? = some x → x.user = "u1") ∧
      (∀ j, j < k → ∀ y, postA.comments[j]? = some y → y.user ≠ "u1") ∧
      deleteComment postA "u1" "cm2" =
        (.ok (postA.comments.take k ++ postA.comments.drop (k + 1)),
          { postA with comments := postA.comments.take k ++ postA.comments.drop (k + 1) })) ∧
    deleteComment postA "u1" "cm2" = (.ok [comB], { postA with comments := [comB] }) ∧
    comA.id ≠ "cm2" :=
  ⟨⟨by decide, by decide⟩,
    c2_delete_comment_scans_author postA "u1" "cm2" comB (by decide) (by decide),
    by decide, by decide⟩

/-! ### Shared lemmas about the like handlers -/

theorem likePost_already_liked (post : Post) (uid : String)
    (hmem : uid ∈ post.likes.map (fun like => like.user)) :
    likePost post uid = (.err 400 "Post already liked", post) := by
  unfold likePost
  have hpos : 0 < (post.likes.filter (fun like => like.user == uid)).length := by
    rw [List.length_pos]
    intro hnil
    rw [List.filter_eq_nil_iff] at hnil
    obtain ⟨l, hl, hlu⟩ := List.mem_map.mp hmem
    exact hnil l hl (by simp [hlu])
  rw [if_pos hpos]

theorem likePost_not_yet_liked (post : Post) (uid : String)
    (hmem : uid ∉ post.likes.map (fun like => like.user)) :
    likePost post uid = (.ok ({ user := uid } :: post.likes),
      { post with likes := { user := uid } :: post.likes }) := by
  unfold likePost
  have hfil : post.likes.filter (fun like => like.user == uid) = [] := by
    rw [List.filter_eq_nil_iff]
    intro a ha hpa
    rw [beq_iff_eq] at hpa
    exact hmem (List.mem_map.mpr ⟨a, ha, hpa⟩)
  rw [hfil]
  simp

/-! ### C4 -/

/-- **C4.** A caller already in the post's like list gets the Conflict
response `400 Post already liked` with the post unchanged; a caller not in
the list gets a like head-inserted, the post saved, and only the
resulting like list returned. -/
theorem c4_like_conflict_or_head_insert (post : Post) (uid : String) :
    (uid ∈ post.likes.map (fun like => like.user) →
      likePost post uid = (.err 400 "Post already liked", post))
    ∧ (uid ∉ post.likes.map (fun like => like.user) →
      likePost post uid = (.ok ({ user := uid } :: post.likes),
        { post with likes := { user := uid } :: post.likes })) :=
  ⟨likePost_already_liked post uid, likePost_not_yet_liked post uid⟩

/-- A sample post with one like, by user `u1`. -/
def postB : Post :=
  { id := "p2", user := "u2", text := "liked once", name := "Oth", avatar := "b",
    likes := [{ user := "u1" }], comments := [] }

/-- **C4 witness.** On the sample post, a second like by `u1` is a
Conflict leaving the list at its single entry, and a like by `u3` is
head-inserted and returned as the like list. -/
theorem c4_witness :
    ("u1" ∈ postB.likes.map (fun like => like.user) ∧
      "u3" ∉ postB.likes.map (fun like => like.user)) ∧
    likePost postB "u1" = (.err 400 "Post already liked", postB) ∧
    likePost postB "u3" = (.ok ({ user := "u3" } :: postB.likes),
      { postB with likes := { user := "u3" } :: postB.likes }) :=
  ⟨⟨by decide, by decide⟩,
    (c4_like_conflict_or_head_insert postB "u1").1 (by decide),
    (c4_like_conflict_or_head_insert postB "u3").2 (by decide)⟩

/-! ### C10 -/

/-- **C10.** On a post whose like list has at most one entry per user and
does not contain the caller, like followed by unlike by the same caller
restores the like list (and the post) to its original value: the unlike
removes exactly the head entry the like inserted. -/
theorem c10_like_unlike_roundtrip (post : Post) (uid : String)
    (hinv : (post.likes.map (fun like => like.user)).Nodup)
    (hnot : uid ∉ post.likes.map (fun like => like.user)) :
    likePost post uid = (.ok ({ user := uid } :: post.likes),
      { post with likes := { user := uid } :: post.likes })
    ∧ unlikePost { post with likes := { user := uid } :: post.likes } uid =
      (.ok post.likes, post) := by
  refine ⟨likePost_not_yet_liked post uid hnot, ?_⟩
  unfold unlikePost
  simp [jsIndexOf, findIdxO, splice1, spliceIdx]

/-- **C10 witness.** Liking then unliking the sample post as `u3`
returns it to its original like list. -/
theorem c10_witness :
    ((postB.likes.map (fun like => like.user)).Nodup ∧
      "u3" ∉ postB.likes.map (fun like => like.user)) ∧
    likePost postB "u3" = (.ok ({ user := "u3" } :: postB.likes),
      { postB with likes := { user := "u3" } :: postB.likes }) ∧
    unlikePost { postB with likes := { user := "u3" } :: postB.likes } "u3" =
      (.ok postB.likes, postB) :=
  ⟨⟨by decide, by decide⟩,
    (c10_like_unlike_roundtrip postB "u3" (by decide) (by decide)).1,
    (c10_like_unlike_roundtrip postB "u3" (by decide) (by decide)).2⟩

/-! ### C3 -/

/-- A stored profile whose social sub-object has a twitter link. -/
def profC : Profile :=
  { user := "u1", company := some "Acme", website := none, location := none,
    bio := none, status := some "developer", githubusername := none,
    skills := [" js"], social := ⟨none, some "t", none, none, none⟩,
    experience := [], education := [] }

/-- An upsert body that provides only youtube among the social platforms
(plus the required status and skills). -/
def inpC : ProfileInput :=
  { company := none, website := none, location := none, bio := none,
    status := some "developer", githubusername := none,
    skills := some (.list ["js"]), youtube := some "y", facebook := none,
    twitter := none, instagram := none, linkedin := none }

/-- **C3 counterexample.** Upserting against the stored profile with a
body that omits twitter does not leave the stored twitter link untouched:
the social sub-object is replaced whole, so the twitter link is dropped. -/
theorem c3_counterexample :
    profC.social.twitter = some "t" ∧
    truthyStr inpC.twitter = false ∧
    (postProfile (some profC) "u1" inpC).social.twitter = none := by
  decide

/-- **C3 (amended).** On every upsert — update of an existing profile and
create alike — the stored social sub-object is the one rebuilt from
exactly the platforms provided in the input: omitted platforms are absent
afterwards and provided platforms carry the input value.  (The original
claim's update case is false: `$set` replaces the `social` key whole, so
omitted platforms are dropped on update just as on create.) -/
theorem c3_social_rebuilt_on_every_upsert (existing : Option Profile)
    (uid : String) (input : ProfileInput) :
    (postProfile existing uid input).social = buildSocial input
    ∧ (truthyStr input.youtube = false → (postProfile existing uid input).social.youtube = none)
    ∧ (truthyStr input.twitter = false → (postProfile existing uid input).social.twitter = none)
    ∧ (truthyStr input.facebook = false → (postProfile existing uid input).social.facebook = none)
    ∧ (truthyStr input.linkedin = false → (postProfile existing uid input).social.linkedin = none)
    ∧ (truthyStr input.instagram = false → (postProfile existing uid input).social.instagram = none)
    ∧ (truthyStr input.youtube = true → (postProfile existing uid input).social.youtube = input.youtube)
    ∧ (truthyStr input.twitter = true → (postProfile existing uid input).social.twitter = input.twitter)
    ∧ (truthyStr input.facebook = true → (postProfile existing uid input).social.facebook = input.facebook)
    ∧ (truthyStr input.linkedin = true → (postProfile existing uid input).social.linkedin = input.linkedin)
    ∧ (truthyStr input.instagram = true → (postProfile existing uid input).social.instagram = input.instagram) := by
  have hsoc : (postProfile existing uid input).social = buildSocial input := by
    cases existing <;> rfl
  refine ⟨hsoc, ?_, ?_, ?_, ?_, ?_, ?_, ?_, ?_, ?_, ?_⟩ <;>
    · intro h
      rw [hsoc]
      simp [buildSocial, keepTruthy, h]

/-- **C3 witness.** On the concrete update of `profC` by `inpC`, the
social sub-object is rebuilt from the input: the omitted twitter platform
ends up absent even though the stored profile had a twitter link. -/
theorem c3_witness :
    truthyStr inpC.twitter = false ∧
    (postProfile (some profC) "u1" inpC).social = buildSocial inpC ∧
    (postProfile (some profC) "u1" inpC).social.twitter = none :=
  ⟨by decide,
    (c3_social_rebuilt_on_every_upsert (some profC) "u1" inpC).1,
    (c3_social_rebuilt_on_every_upsert (some profC) "u1" inpC).2.2.1 (by decide)⟩

/-! ### Lemmas about trimming -/

theorem dropWhile_idem (p : α → Bool) (l : List α) :
    (l.dropWhile p).dropWhile p = l.dropWhile p := by
  cases h : l.dropWhile p with
  | nil => simp
  | cons a t =>
    have ha : p a = false := by
      have hh := List.head?_dropWhile_not p l
      rw [h] at hh
      simpa using hh
    simp [List.dropWhile_cons, ha]

theorem dropWhile_eq_self_of_append (p : α → Bool) (l t : List α)
    (h : (l ++ t).dropWhile p = l ++ t) : l.dropWhile p = l := by
  cases l with
  | nil => rfl
  | cons a l' =>
    have ha : p a = false := by
      by_contra hpa
      rw [Bool.not_eq_false] at hpa
      rw [List.cons_append, List.dropWhile_cons_of_pos hpa] at h
      have hle := (List.dropWhile_sublist (l := l' ++ t) p).length_le
      have hlen := congrArg List.length h
      simp only [List.length_cons, List.length_append] at hlen hle
      omega
    simp [List.dropWhile_cons, ha]

theorem jsTrimChars_no_lead (s : List Char) :
    (jsTrimChars s).dropWhile isJsWhitespace = jsTrimChars s := by
  unfold jsTrimChars
  set m := s.dropWhile isJsWhitespace with hm
  have hdecomp : m = (m.reverse.dropWhile isJsWhitespace).reverse ++
      (m.reverse.takeWhile isJsWhitespace).reverse := by
    conv_lhs =>
      rw [← List.reverse_reverse m,
        ← List.takeWhile_append_dropWhile isJsWhitespace m.reverse]
    rw [List.reverse_append]
  have hself : ((m.reverse.dropWhile isJsWhitespace).reverse ++
      (m.reverse.takeWhile isJsWhitespace).reverse).dropWhile isJsWhitespace =
      (m.reverse.dropWhile isJsWhitespace).reverse ++
        (m.reverse.takeWhile isJsWhitespace).reverse := by
    rw [← hdecomp, hm]
    exact dropWhile_idem _ _
  exact dropWhile_eq_self_of_append _ _ _ hself

theorem jsTrimChars_no_trail (s : List Char) :
    (jsTrimChars s).reverse.dropWhile isJsWhitespace = (jsTrimChars s).reverse := by
  unfold jsTrimChars
  rw [List.reverse_reverse]
  exact dropWhile_idem _ _

/-! ### C5 -/

/-- **C5.** On a valid upsert whose skills value is a string, the stored
skills are the comma-separated segments in their original order, each
mapped to a single leading space followed by the independently trimmed
segment (no whitespace remains at either end of the trimmed part).  A
skills value that is already a list is stored unchanged. -/
theorem c5_skills_normalization (existing : Option Profile) (uid : String)
    (input : ProfileInput) :
    (∀ s : String, input.skills = some (.str s) → s ≠ "" →
      (postProfile existing uid input).skills =
        (jsSplitComma s).map (fun skill => " " ++ jsTrim skill)
      ∧ ∀ t ∈ (postProfile existing uid input).skills, ∃ u : String,
          t = " " ++ u ∧ u.data.dropWhile isJsWhitespace = u.data
          ∧ u.data.reverse.dropWhile isJsWhitespace = u.data.reverse)
    ∧ (∀ l : List String, input.skills = some (.list l) →
        (postProfile existing uid input).skills = l) := by
  constructor
  · intro s hs hne
    have htr : truthySkills (some (SkillsInput.str s)) = true := by
      simpa [truthySkills] using hne
    have hstored : (postProfile existing uid input).skills = normalizeSkills (.str s) := by
      cases existing <;>
        simp [postProfile, applySet, createProfile, buildProfileFields, htr, hs]
    constructor
    · rw [hstored]
      rfl
    · intro t ht
      rw [hstored] at ht
      simp only [normalizeSkills, List.mem_map] at ht
      obtain ⟨seg, hseg, rfl⟩ := ht
      refine ⟨jsTrim seg, rfl, ?_, ?_⟩
      · simpa [jsTrim] using jsTrimChars_no_lead seg.data
      · simpa [jsTrim] using jsTrimChars_no_trail seg.data
  · intro l hl
    have htr : truthySkills (some (SkillsInput.list l)) = true := rfl
    cases existing <;>
      simp [postProfile, applySet, createProfile, buildProfileFields, htr, hl,
        normalizeSkills]

/-- An upsert body whose skills value is the comma string of the claim. -/
def inpD : ProfileInput :=
  { company := none, website := none, location := none, bio := none,
    status := some "developer", githubusername := none,
    skills := some (.str "a, b ,c"), youtube := none, facebook := none,
    twitter := none, instagram := none, linkedin := none }

/-- **C5 witness.** Creating a profile from the body with skills
`"a, b ,c"` stores `[" a", " b", " c"]`: three independently trimmed
entries, each with exactly one leading space, in order. -/
theorem c5_witness :
    (inpD.skills = some (.str "a, b ,c") ∧ "a, b ,c" ≠ "") ∧
    ((postProfile none "u1" inpD).skills =
        (jsSplitComma "a, b ,c").map (fun skill => " " ++ jsTrim skill)
      ∧ ∀ t ∈ (postProfile none "u1" inpD).skills, ∃ u : String,
          t = " " ++ u ∧ u.data.dropWhile isJsWhitespace = u.data
          ∧ u.data.reverse.dropWhile isJsWhitespace = u.data.reverse) ∧
    (postProfile none "u1" inpD).skills = [" a", " b", " c"] :=
  ⟨⟨by decide, by decide⟩,
    (c5_skills_normalization none "u1" inpD).1 "a, b ,c" (by decide) (by decide),
    by decide⟩

/-! ### C6 -/

/-- **C6.** Account deletion issues exactly three removals in program
order — the caller's posts, then their profile, then their user record —
so that stopping after any proper prefix (a later step failing) leaves
the user record present while the posts (from the first step on) are
already gone. -/
theorem c6_delete_account_fixed_order (uid : String) (s : Store)
    (hu : uid ∈ s.users) :
    deleteAccountOps uid =
      [.deleteManyPostsByUser uid, .removeProfileByUser uid, .removeUserById uid]
    ∧ (runOps s (deleteAccountOps uid)).posts = s.posts.filter (fun p => p.user != uid)
    ∧ (runOps s (deleteAccountOps uid)).profiles = s.profiles.eraseP (fun p => p.user == uid)
    ∧ (runOps s (deleteAccountOps uid)).users = s.users.eraseP (fun u => u == uid)
    ∧ (∀ k, k < 3 → uid ∈ (runOps s ((deleteAccountOps uid).take k)).users)
    ∧ (∀ k, 1 ≤ k →
        (runOps s ((deleteAccountOps uid).take k)).posts =
          s.posts.filter (fun p => p.user != uid)) := by
  refine ⟨rfl, rfl, rfl, rfl, ?_, ?_⟩
  · intro k hk
    interval_cases k
    · simpa [runOps, deleteAccountOps, applyOp] using hu
    · simpa [runOps, deleteAccountOps, applyOp] using hu
    · simpa [runOps, deleteAccountOps, applyOp] using hu
  · intro k hk
    match k, hk with
    | 1, _ => rfl
    | 2, _ => rfl
    | (n + 3), _ =>
      rw [List.take_of_length_le (by simp [deleteAccountOps])]
      rfl

/-- A sample store: two users, one profile, two posts by `u1` and one by
`u2`. -/
def storeA : Store :=
  { users := ["u1", "u2"], profiles := [profA], posts := [postA, postB,
      { id := "p3", user := "u1", text := "mine", name := "Kev", avatar := "a",
        likes := [], comments := [] }] }

/-- **C6 witness.** Deleting the account of `u1` on the sample store
removes their posts, profile and user record, while every proper prefix
of the operation sequence leaves the `u1` user record in place. -/
theorem c6_witness :
    ("u1" ∈ storeA.users) ∧
    (deleteAccountOps "u1" =
      [.deleteManyPostsByUser "u1", .removeProfileByUser "u1", .removeUserById "u1"]
    ∧ (runOps storeA (deleteAccountOps "u1")).posts =
        storeA.posts.filter (fun p => p.user != "u1")
    ∧ (runOps storeA (deleteAccountOps "u1")).profiles =
        storeA.profiles.eraseP (fun p => p.user == "u1")
    ∧ (runOps storeA (deleteAccountOps "u1")).users =
        storeA.users.eraseP (fun u => u == "u1")
    ∧ (∀ k, k < 3 → "u1" ∈ (runOps storeA ((deleteAccountOps "u1").take k)).users)
    ∧ (∀ k, 1 ≤ k →
        (runOps storeA ((deleteAccountOps "u1").take k)).posts =
          storeA.posts.filter (fun p => p.user != "u1"))) :=
  ⟨by decide, c6_delete_account_fixed_order "u1" storeA (by decide)⟩

/-! ### C7 -/

/-- **C7.** Fetching a profile by a structurally malformed user
identifier yields exactly the response of a well-formed identifier with
no profile — `400 Profile not found`, same status and message — and a
malformed identifier is never surfaced as a `500` server error. -/
theorem c7_malformed_id_same_not_found (store : List Profile) (bad good : String)
    (hbad : validObjectId bad = false) (hgood : validObjectId good = true)
    (habsent : ∀ p ∈ store, p.user ≠ good) :
    getProfileByUser store bad = .err 400 "Profile not found"
    ∧ getProfileByUser store bad = getProfileByUser store good
    ∧ ∀ m, getProfileByUser store bad ≠ .err 500 m := by
  have h1 : getProfileByUser store bad = .err 400 "Profile not found" := by
    simp [getProfileByUser, dbFindProfileByUser, hbad]
  have hfind : store.find? (fun p => p.user == good) = none := by
    rw [List.find?_eq_none]
    intro p hp
    simpa using habsent p hp
  have h2 : getProfileByUser store good = .err 400 "Profile not found" := by
    simp [getProfileByUser, dbFindProfileByUser, hgood, hfind]
  refine ⟨h1, by rw [h1, h2], ?_⟩
  intro m
  rw [h1]
  simp

/-- **C7 witness.** The malformed identifier `"nope"` and the well-formed
but absent identifier (24 hex characters) get the identical
`400 Profile not found` response on a store holding only `profA`, and the
malformed one is not a server error. -/
theorem c7_witness :
    (validObjectId "nope" = false ∧
      validObjectId "0123456789abcdef01234567" = true ∧
      (∀ p ∈ [profA], p.user ≠ "0123456789abcdef01234567")) ∧
    (getProfileByUser [profA] "nope" = .err 400 "Profile not found"
    ∧ getProfileByUser [profA] "nope" =
        getProfileByUser [profA] "0123456789abcdef01234567"
    ∧ ∀ m, getProfileByUser [profA] "nope" ≠ .err 500 m) :=
  ⟨⟨by decide, by decide, by decide⟩,
    c7_malformed_id_same_not_found [profA] "nope" "0123456789abcdef01234567"
      (by decide) (by decide) (by decide)⟩

/-! ### C8 -/

/-- **C8 counterexample.** A caller with no profile gets `500 Server
error` — the generic ServerError of the catch-all, not a NotFound (the
application's NotFound responses carry status 400 or 404) — from both
add-experience and add-education; no profile is created. -/
theorem c8_counterexample :
    addExperience [] "u1" expA = (.err 500 "Server error", [])
    ∧ addEducation [] "u1" eduA = (.err 500 "Server error", [])
    ∧ 500 ≠ 400 ∧ 500 ≠ 404 := by
  decide

/-- **C8 (amended).** For every caller with no profile, add-experience
and add-education fail with the generic `500 Server error` (the null
profile makes `profile.experience.unshift` throw, and the catch block
degrades to ServerError) rather than creating a profile on demand: the
store is returned unchanged. -/
theorem c8_missing_profile_is_server_error (profiles : List Profile)
    (uid : String) (newExp : Experience) (newEdu : Education)
    (hnone : profiles.find? (fun p => p.user == uid) = none) :
    addExperience profiles uid newExp = (.err 500 "Server error", profiles)
    ∧ addEducation profiles uid newEdu = (.err 500 "Server error", profiles) := by
  unfold addExperience addEducation
  rw [hnone]
  exact ⟨rfl, rfl⟩

/-- **C8 witness.** On the empty store, caller `u1` has no profile and
both handlers return the generic server error, leaving the store empty. -/
theorem c8_witness :
    (([] : List Profile).find? (fun p => p.user == "u1") = none) ∧
    (addExperience [] "u1" expA = (.err 500 "Server error", [])
    ∧ addEducation [] "u1" eduA = (.err 500 "Server error", [])) :=
  ⟨by decide, c8_missing_profile_is_server_error [] "u1" expA eduA (by decide)⟩

/-! ### C9 -/

/-- **C9 counterexample.** Upstream status 201 is a success status
(2xx), yet the handler maps it to `404 No Github profile found` instead
of relaying the body: only status exactly 200 relays. -/
theorem c9_counterexample :
    githubHandler 201 "[]" = .err 404 "No Github profile found"
    ∧ 200 ≤ 201 ∧ 201 < 300 := by
  decide

/-- **C9 (amended).** The lookup forwards a fixed page size (5) and sort
order (`created:asc`) for every username; every upstream status other
than exactly 200 — including other success statuses — yields the uniform
`404 No Github profile found`, and a 200 relays the upstream body
unchanged. -/
theorem c9_only_status_200_relays (username : String) (statusCode : Nat)
    (body : String) :
    githubUri username =
      "https://api.github.com/users/" ++ username ++ "/repos?per_page=5&sort=created:asc"
    ∧ (statusCode ≠ 200 → githubHandler statusCode body = .err 404 "No Github profile found")
    ∧ (statusCode = 200 → githubHandler statusCode body = .ok body) := by
  refine ⟨rfl, ?_, ?_⟩ <;> intro h <;> simp [githubHandler, h]

/-- **C9 witness.** For username `octocat`: the URI carries the fixed
query, upstream 404 maps to the uniform NotFound, and upstream 200 with
body `"[]"` is relayed. -/
theorem c9_witness :
    ((404 : Nat) ≠ 200 ∧ (200 : Nat) = 200) ∧
    githubUri "octocat" =
      "https://api.github.com/users/" ++ "octocat" ++ "/repos?per_page=5&sort=created:asc"
    ∧ githubHandler 404 "" = .err 404 "No Github profile found"
    ∧ githubHandler 200 "[]" = .ok "[]" :=
  ⟨⟨by decide, by decide⟩,
    (c9_only_status_200_relays "octocat" 404 "").1,
    (c9_only_status_200_relays "octocat" 404 "").2.1 (by decide),
    (c9_only_status_200_relays "octocat" 200 "[]").2.2 (by decide)⟩

end DevConnector
